import Mathlib

/-!
Verification of the Superstore dashboard's core pipeline (`app.py`):
filtering, period comparison, KPI aggregation and the top-N grouped view.

The tabular dataset is embedded shallowly: a row of the Orders table is an
`OrderRow`, a dataframe is a `List OrderRow`, calendar dates are day numbers
(`Int`, one unit = one day, matching the `.days` arithmetic of the script),
and currency/metric values are exact rationals (`ℚ`).  All definitions are
translated from the statements of `app.py`; the line numbers cited in the
doc comments refer to that file.
-/

/-- One row of the Orders sheet after preprocessing by `load_data`
(app.py lines 82-109).  Only the columns the pipeline reads are kept.
`shipmentTime` is `none` when the ship date failed to parse (pandas `NaT`),
mirroring `(Ship Date - Order Date).dt.days` being `NaN`. -/
structure OrderRow where
  orderId : String
  orderDate : Int
  region : String
  state : String
  category : String
  subCategory : String
  segment : String
  productName : String
  sales : ℚ
  profit : ℚ
  quantity : ℚ
  shipmentTime : Option Int
deriving DecidableEq, Repr

/-- The filter selections of the popover (app.py lines 141-187): each
categorical selectbox is `none` for `"All"` and `some v` for an exact value,
plus the two date inputs. -/
structure Criteria where
  region : Option String
  state : Option String
  category : Option String
  subCategory : Option String
  segment : Option String
  dateFrom : Int
  dateTo : Int
deriving DecidableEq, Repr

/-- One `if selected != "All": df = df[df[col] == selected]` step of the
popover (e.g. app.py lines 145-146): identity for `"All"`, otherwise an
exact-match row filter. -/
def applySel (get : OrderRow → String) (sel : Option String) (rows : List OrderRow) :
    List OrderRow :=
  match sel with
  | none => rows
  | some v => rows.filter (fun r => get r == v)

/-- The five categorical filters applied in source order
region → state → category → sub-category → segment (app.py lines 145-174;
reapplied to the past subset at lines 245-258). -/
def catFilter (c : Criteria) (rows : List OrderRow) : List OrderRow :=
  applySel (·.segment) c.segment
    (applySel (·.subCategory) c.subCategory
      (applySel (·.category) c.category
        (applySel (·.state) c.state
          (applySel (·.region) c.region rows))))

/-- Inclusive order-date range filter,
`df[(df["Order Date"] >= from) & (df["Order Date"] <= to)]`
(app.py lines 195-198, 232, 242). -/
def dateFilter (f t : Int) (rows : List OrderRow) : List OrderRow :=
  rows.filter (fun r => decide (f ≤ r.orderDate ∧ r.orderDate ≤ t))

/-- `df["Order Date"].min()` (app.py lines 182, 235); `0` is a dummy for the
empty frame, which the pipeline only ever uses vacuously. -/
def minDate : List OrderRow → Int
  | [] => 0
  | [r] => r.orderDate
  | r :: rs => min r.orderDate (minDate rs)

/-- `df["Order Date"].max()` (app.py lines 183, 236). -/
def maxDate : List OrderRow → Int
  | [] => 0
  | [r] => r.orderDate
  | r :: rs => max r.orderDate (maxDate rs)

/-- Result of the categorical stage together with its empty fallback
(app.py lines 139-179): if the five filters leave no rows the engine warns
and resets to the full dataset. -/
def stage1 (D : List OrderRow) (c : Criteria) : List OrderRow :=
  if catFilter c D = [] then D else catFilter c D

/-- True exactly when the first "Resetting to full dataset" warning fires
(app.py lines 177-179). -/
def emptyFallback1 (D : List OrderRow) (c : Criteria) : Prop :=
  catFilter c D = []

/-- True exactly when the "Invalid date range selected" warning fires
(app.py lines 190-192). -/
def dateCorrected (c : Criteria) : Prop :=
  c.dateFrom > c.dateTo

/-- The lower date bound actually used: on an inverted selection the pair is
reset to the min of the current (categorically filtered) frame
(app.py lines 182, 190-192). -/
def usedFrom (D : List OrderRow) (c : Criteria) : Int :=
  if c.dateFrom > c.dateTo then minDate (stage1 D c) else c.dateFrom

/-- The upper date bound actually used (app.py lines 183, 190-192). -/
def usedTo (D : List OrderRow) (c : Criteria) : Int :=
  if c.dateFrom > c.dateTo then maxDate (stage1 D c) else c.dateTo

/-- The frame after the date filter is applied to the categorical stage
(app.py lines 195-198). -/
def stage2 (D : List OrderRow) (c : Criteria) : List OrderRow :=
  dateFilter (usedFrom D c) (usedTo D c) (stage1 D c)

/-- True exactly when the second "Showing full dataset" warning fires
(app.py lines 218-220). -/
def emptyFallback2 (D : List OrderRow) (c : Criteria) : Prop :=
  stage2 D c = []

/-- Final `df_filtered`: the date-filtered frame, or the full dataset again
if that came out empty (app.py lines 218-220). -/
def engineRows (D : List OrderRow) (c : Criteria) : List OrderRow :=
  if stage2 D c = [] then D else stage2 D c

/-- `date_range_days = (to_date - from_date).days` (app.py line 225). -/
def dateRangeDays (f t : Int) : Int := t - f

/-- `past_start_date = from_date - timedelta(days=date_range_days)`
(app.py line 228). -/
def pastStartDate (f t : Int) : Int := f - dateRangeDays f t

/-- `past_end_date = to_date - timedelta(days=date_range_days)`
(app.py line 229). -/
def pastEndDate (f t : Int) : Int := t - dateRangeDays f t

/-- The six KPI values returned as a tuple by `compute_kpis`
(app.py lines 203-215), in source order.  `totalOrders` is the distinct
order-ID count cast to `ℚ` because it is later fed to the numeric
percentage-change function. -/
structure Kpis where
  totalSales : ℚ
  avgOrderValue : ℚ
  totalOrders : ℚ
  totalProfit : ℚ
  profitMargin : ℚ
  avgShipmentTime : ℚ
deriving DecidableEq, Repr

/-- The all-zero KPI tuple `(0, 0, 0, 0, 0, 0)` (app.py lines 206, 270). -/
def zeroKpis : Kpis := ⟨0, 0, 0, 0, 0, 0⟩

/-- `compute_kpis` (app.py lines 203-215).  `nunique` is the length of the
deduplicated order-ID list; `df["Shipment Time"].mean()` skips the null
entries and is `NaN` (replaced by 0 at line 214) when none are defined. -/
def computeKpis (rows : List OrderRow) : Kpis :=
  if rows = [] then zeroKpis
  else
    let totalSales := (rows.map (·.sales)).sum
    let totalProfit := (rows.map (·.profit)).sum
    let totalOrders : ℚ := ((rows.map (·.orderId)).dedup.length : ℚ)
    let avgOrderValue := if totalOrders > 0 then totalSales / totalOrders else 0
    let profitMargin := if totalSales > 0 then totalProfit / totalSales * 100 else 0
    let shipTimes := rows.filterMap (·.shipmentTime)
    let avgShipmentTime :=
      if shipTimes = [] then 0 else ((shipTimes.sum : Int) : ℚ) / (shipTimes.length : ℚ)
    ⟨totalSales, avgOrderValue, totalOrders, totalProfit, profitMargin, avgShipmentTime⟩

/-- `calc_percentage_change` (app.py lines 273-277). -/
def calcPercentageChange (current past : ℚ) : ℚ :=
  if past = 0 then 0 else (current - past) / past * 100

/-- Per-row margin rate derived by the loader (app.py lines 100-101):
`(Profit / Sales).replace([inf, -inf], 0) * 100` followed by `fillna(0)`.
For finite inputs the float ratio is `±inf` when sales is 0 and profit is
not, and `NaN` when both are 0; both branches are sent to 0, so the derived
value is exactly this case split and is always a finite rational. -/
def marginRate (profit sales : ℚ) : ℚ :=
  if sales = 0 then 0 else profit / sales * 100

/-- `df_current` (app.py line 232): the engine output date-filtered by the
(possibly corrected) selected range. -/
def dfCurrent (D : List OrderRow) (c : Criteria) : List OrderRow :=
  dateFilter (usedFrom D c) (usedTo D c) (engineRows D c)

/-- The past window's start for the selected range. -/
def pastFromOf (D : List OrderRow) (c : Criteria) : Int :=
  pastStartDate (usedFrom D c) (usedTo D c)

/-- The past window's end for the selected range. -/
def pastToOf (D : List OrderRow) (c : Criteria) : Int :=
  pastEndDate (usedFrom D c) (usedTo D c)

/-- The guard of app.py line 239: the computed past window falls (partly)
outside the available data of the full dataset. -/
def pastOutOfRange (D : List OrderRow) (c : Criteria) : Prop :=
  pastFromOf D c < minDate D ∨ pastToOf D c > maxDate D

/-- `df_past` (app.py lines 239-258): empty when the past window is out of
range, otherwise the full dataset restricted to the past window and then to
the same categorical filters. -/
def dfPast (D : List OrderRow) (c : Criteria) : List OrderRow :=
  if pastFromOf D c < minDate D ∨ pastToOf D c > maxDate D then []
  else catFilter c (dateFilter (pastFromOf D c) (pastToOf D c) D)

/-- `past_data_available = not df_past.empty` (app.py line 262). -/
def pastDataAvailable (D : List OrderRow) (c : Criteria) : Prop :=
  dfPast D c ≠ []

/-- KPIs of the current period (app.py line 265). -/
def currentKpis (D : List OrderRow) (c : Criteria) : Kpis :=
  computeKpis (dfCurrent D c)

/-- KPIs of the past period, zeroed when no past data exists
(app.py lines 267-270). -/
def pastKpis (D : List OrderRow) (c : Criteria) : Kpis :=
  if dfPast D c ≠ [] then computeKpis (dfPast D c) else zeroKpis

/-- The six displayed percentage changes (app.py lines 280-285), in source
order: sales, average order value, orders, profit, profit margin, shipment
time. -/
structure ChangeSet where
  salesChange : ℚ
  avgOrderValueChange : ℚ
  ordersChange : ℚ
  profitChange : ℚ
  profitMarginChange : ℚ
  shipmentTimeChange : ℚ
deriving DecidableEq, Repr

/-- The all-zero change set. -/
def zeroChanges : ChangeSet := ⟨0, 0, 0, 0, 0, 0⟩

/-- The changes reported for a dataset and filter selection
(app.py lines 280-285). -/
def changesOf (D : List OrderRow) (c : Criteria) : ChangeSet :=
  let cur := currentKpis D c
  let past := pastKpis D c
  ⟨calcPercentageChange cur.totalSales past.totalSales,
   calcPercentageChange cur.avgOrderValue past.avgOrderValue,
   calcPercentageChange cur.totalOrders past.totalOrders,
   calcPercentageChange cur.totalProfit past.totalProfit,
   calcPercentageChange cur.profitMargin past.profitMargin,
   calcPercentageChange cur.avgShipmentTime past.avgShipmentTime⟩

/-- Stable ascending insertion of one element: `x` is placed before the
first entry it compares `le` to, so earlier-processed elements stay before
equal later ones. -/
def insertAsc (le : α → α → Bool) (x : α) : List α → List α
  | [] => [x]
  | y :: ys => if le x y then x :: y :: ys else y :: insertAsc le x ys

/-- Stable ascending sort (insertion sort), the reference semantics of the
stable ascending argsort that pandas `sort_values` builds on. -/
def sortAsc (le : α → α → Bool) : List α → List α
  | [] => []
  | x :: xs => insertAsc le x (sortAsc le xs)

/-- Code-point lexicographic strict comparison of character lists: the
order Python string comparison uses, hence the key order of pandas
`groupby`/`sort_values` on the Product Name column. -/
def charListLtB : List Char → List Char → Bool
  | [], [] => false
  | [], _ :: _ => true
  | _ :: _, [] => false
  | a :: as, b :: bs =>
    if a < b then true
    else if b < a then false
    else charListLtB as bs

/-- Strict code-point order on strings. -/
def strLtB (a b : String) : Bool := charListLtB a.data b.data

/-- Reflexive code-point order on strings. -/
def strLeB (a b : String) : Bool := !strLtB b a

/-- The distinct product names in pandas `groupby("Product Name")` iteration
order, i.e. sorted ascending (app.py line 390). -/
def sortedProductNames (rows : List OrderRow) : List String :=
  sortAsc strLeB (rows.map (·.productName)).dedup

/-- `df_filtered.groupby("Product Name")[[kpi]].sum().reset_index()`
(app.py line 390): one `(productName, sum of metric)` pair per distinct
product, in ascending name order. -/
def groupByProductSum (m : OrderRow → ℚ) (rows : List OrderRow) : List (String × ℚ) :=
  (sortedProductNames rows).map
    (fun k => (k, ((rows.filter (fun r => r.productName == k)).map m).sum))

/-- `sort_values(by=kpi, ascending=False)` (app.py line 391): pandas
computes a stable ascending argsort of the key and reverses the resulting
indexer, so descending output is the reverse of the stable ascending
order. -/
def sortValuesDesc (l : List (String × ℚ)) : List (String × ℚ) :=
  (sortAsc (fun a b => decide (a.2 ≤ b.2)) l).reverse

/-- `df_top10` (app.py lines 390-391): group by product, sort descending by
the summed metric, keep the first `n` rows (`head(10)`). -/
def topN (m : OrderRow → ℚ) (rows : List OrderRow) (n : Nat) : List (String × ℚ) :=
  (sortValuesDesc (groupByProductSum m rows)).take n

/-- Boolean test of one categorical selection against a row field. -/
def selPred (get : OrderRow → String) (sel : Option String) (r : OrderRow) : Bool :=
  match sel with
  | none => true
  | some v => get r == v

/-- Fused predicate of the five categorical filters. -/
def catPred (c : Criteria) (r : OrderRow) : Bool :=
  selPred (·.segment) c.segment r &&
    (selPred (·.subCategory) c.subCategory r &&
      (selPred (·.category) c.category r &&
        (selPred (·.state) c.state r &&
          selPred (·.region) c.region r)))

/-! ## Concrete frames used by witnesses and counterexamples -/

/-- Row constructor for concrete test frames; unused columns get fixed
values. -/
def sampleRow (oid : String) (d : Int) (reg pn : String) (s : ℚ) : OrderRow :=
  ⟨oid, d, reg, "CA", "Furniture", "Chairs", "Consumer", pn, s, 0, 0, none⟩

/-- Criteria selecting a single region with an order-date range. -/
def regionCriteria (reg : Option String) (f t : Int) : Criteria :=
  ⟨reg, none, none, none, none, f, t⟩

/-- Two-row frame whose regions are East and West. -/
def fallbackFrame : List OrderRow :=
  [sampleRow "o1" 1 "East" "p" 10, sampleRow "o2" 2 "West" "p" 20]

/-- Criteria matching no region, with a date range keeping only day 1. -/
def fallbackCriteria : Criteria := regionCriteria (some "North") 1 1

/-- Two-row frame: an East row on day 3 and a West row on day 7. -/
def invertedFrame : List OrderRow :=
  [sampleRow "o1" 3 "East" "p" 10, sampleRow "o2" 7 "West" "p" 20]

/-- Criteria selecting region East with an inverted date range `9 > 1`. -/
def invertedCriteria : Criteria := regionCriteria (some "East") 9 1

/-- Fifteen single-row products: `a` and `b` tie at sales 50, `p1`–`p8`
hold the top eight values 100–93, `q1`–`q5` the low values 1–5. -/
def tieRows : List OrderRow :=
  [sampleRow "o1" 0 "East" "a" 50, sampleRow "o2" 0 "East" "b" 50,
   sampleRow "o3" 0 "East" "p1" 100, sampleRow "o4" 0 "East" "p2" 99,
   sampleRow "o5" 0 "East" "p3" 98, sampleRow "o6" 0 "East" "p4" 97,
   sampleRow "o7" 0 "East" "p5" 96, sampleRow "o8" 0 "East" "p6" 95,
   sampleRow "o9" 0 "East" "p7" 94, sampleRow "o10" 0 "East" "p8" 93,
   sampleRow "o11" 0 "East" "q1" 1, sampleRow "o12" 0 "East" "q2" 2,
   sampleRow "o13" 0 "East" "q3" 3, sampleRow "o14" 0 "East" "q4" 4,
   sampleRow "o15" 0 "East" "q5" 5]

/-! ## Claim C5: percentage change -/

/-- Claim C5: `calc_percentage_change` returns 0 for every current value
whenever the past value is 0 (including current 0), and otherwise returns
`(current - past) / past * 100`; in particular it maps `(110, 100)` to `10`
and `(90, 100)` to `-10`. -/
theorem calcPercentageChange_spec :
    (∀ x : ℚ, calcPercentageChange x 0 = 0) ∧
    calcPercentageChange 110 100 = 10 ∧
    calcPercentageChange 90 100 = -10 ∧
    (∀ current past : ℚ, past ≠ 0 →
      calcPercentageChange current past = (current - past) / past * 100) := by
  refine ⟨fun x => by simp [calcPercentageChange], by norm_num [calcPercentageChange],
    by norm_num [calcPercentageChange], fun current past hp => by
      simp [calcPercentageChange, hp]⟩

/-- Witness for C5: the general branch of `calcPercentageChange_spec`
evaluated at `(50, 25)`. -/
theorem calcPercentageChange_spec_witness :
    calcPercentageChange 50 25 = (50 - 25) / 25 * 100 :=
  calcPercentageChange_spec.2.2.2 50 25 (by norm_num)

/-! ## Claim C7: margin rate safety -/

/-- Claim C7: the derived margin rate is a total function into the
rationals (so never an infinity or NaN), equals `profit / sales * 100` when
sales is nonzero, and is 0 whenever sales is 0 — in particular a record with
sales 0 and profit 50 has margin rate 0. -/
theorem marginRate_spec :
    (∀ profit : ℚ, marginRate profit 0 = 0) ∧
    marginRate 50 0 = 0 ∧
    (∀ profit sales : ℚ, sales ≠ 0 → marginRate profit sales = profit / sales * 100) := by
  refine ⟨fun profit => by simp [marginRate], by simp [marginRate],
    fun profit sales hs => by simp [marginRate, hs]⟩

/-- Witness for C7: the nonzero-sales branch of `marginRate_spec` evaluated
at profit 30, sales 60. -/
theorem marginRate_spec_witness :
    marginRate 30 60 = 30 / 60 * 100 :=
  marginRate_spec.2.2 30 60 (by norm_num)

/-! ## Claim C1: the resolved past window -/

/-- Counterexample for C1: the claim says the past window shares no day
with the current range.  For the current range `[0, 2]` the code computes
`past_start_date = -2` and `past_end_date = 0`, and day `0` lies in both
windows, so the windows are not disjoint. -/
theorem pastWindow_not_disjoint :
    ¬ (∀ d : Int, ¬ ((pastStartDate 0 2 ≤ d ∧ d ≤ pastEndDate 0 2) ∧
        (0 ≤ d ∧ d ≤ 2))) := by
  intro h
  exact h 0 ⟨⟨by decide, by decide⟩, by decide, by decide⟩

/-- Claim C1 (amended): for a selected range `[from, to]` the resolver
computes `spanDays = to - from`, `pastFrom = from - spanDays` and
`pastTo = to - spanDays`; the past window has the same length as the
current one and immediately precedes it, but its end equals `from`, so the
two windows share exactly that one day (rather than no day). -/
theorem pastWindow_spec (f t : Int) (hft : f ≤ t) :
    pastStartDate f t = f - (t - f) ∧
    pastEndDate f t = f ∧
    pastEndDate f t - pastStartDate f t = t - f ∧
    (∀ d : Int, pastStartDate f t ≤ d → d ≤ pastEndDate f t →
      f ≤ d → d ≤ t → d = f) := by
  refine ⟨?_, ?_, ?_, ?_⟩
  · simp [pastStartDate, dateRangeDays]
  · simp [pastEndDate, dateRangeDays]
  · simp [pastStartDate, pastEndDate, dateRangeDays]
  · intro d _ h2 h3 _
    simp [pastEndDate, dateRangeDays] at h2
    omega

/-- Witness for C1: the amended window facts at the concrete range
`[10, 14]`. -/
theorem pastWindow_spec_witness :
    pastStartDate 10 14 = 10 - (14 - 10) ∧ pastEndDate 10 14 = 10 :=
  ⟨(pastWindow_spec 10 14 (by decide)).1, (pastWindow_spec 10 14 (by decide)).2.1⟩

/-! ## Claim C4: compute_kpis defining equations -/

/-- Claim C4: `compute_kpis` returns all zeros on the empty subset, its
order count is the number of distinct order identifiers (so two rows
sharing one order ID contribute 1 to the order count but both sales amounts
to total sales), the average order value is 0 when the order count is 0,
and the profit margin is 0 when total sales is 0. -/
theorem computeKpis_spec :
    computeKpis [] = zeroKpis ∧
    (∀ rows : List OrderRow,
      (computeKpis rows).totalOrders = ((rows.map (·.orderId)).dedup.length : ℚ)) ∧
    (∀ r1 r2 : OrderRow, r1.orderId = r2.orderId →
      (computeKpis [r1, r2]).totalOrders = 1 ∧
      (computeKpis [r1, r2]).totalSales = r1.sales + r2.sales) ∧
    (∀ rows : List OrderRow,
      (computeKpis rows).totalOrders = 0 → (computeKpis rows).avgOrderValue = 0) ∧
    (∀ rows : List OrderRow,
      (computeKpis rows).totalSales = 0 → (computeKpis rows).profitMargin = 0) := by
  refine ⟨rfl, ?_, ?_, ?_, ?_⟩
  · intro rows
    by_cases h : rows = []
    · subst h; simp [computeKpis, zeroKpis]
    · simp [computeKpis, h]
  · intro r1 r2 hid
    constructor
    · simp [computeKpis, hid, List.dedup_cons_of_mem]
    · simp [computeKpis]
  · intro rows h
    by_cases hr : rows = []
    · subst hr; simp [computeKpis, zeroKpis]
    · simp only [computeKpis, hr, if_false] at h ⊢
      simp only [h, lt_irrefl, if_false]
  · intro rows h
    by_cases hr : rows = []
    · subst hr; simp [computeKpis, zeroKpis]
    · simp only [computeKpis, hr, if_false] at h ⊢
      simp only [h, lt_irrefl, if_false]

/-! ## Filter algebra -/

/-- A categorical step commutes with any other row filter. -/
theorem applySel_filter (get : OrderRow → String) (sel : Option String)
    (p : OrderRow → Bool) (l : List OrderRow) :
    applySel get sel (l.filter p) = (applySel get sel l).filter p := by
  cases sel with
  | none => rfl
  | some v => exact List.filter_comm _ _ _

/-- The five categorical filters commute with any other row filter. -/
theorem catFilter_filter (c : Criteria) (p : OrderRow → Bool) (l : List OrderRow) :
    catFilter c (l.filter p) = (catFilter c l).filter p := by
  simp only [catFilter, applySel_filter]

/-- The categorical filters commute with the date filter. -/
theorem catFilter_dateFilter (c : Criteria) (f t : Int) (l : List OrderRow) :
    catFilter c (dateFilter f t l) = dateFilter f t (catFilter c l) :=
  catFilter_filter c _ l

/-- A categorical step is idempotent. -/
theorem applySel_idem (get : OrderRow → String) (sel : Option String) (l : List OrderRow) :
    applySel get sel (applySel get sel l) = applySel get sel l := by
  cases sel with
  | none => rfl
  | some v =>
    simp only [applySel, List.filter_filter]
    exact List.filter_congr (fun a _ => Bool.and_self _)

/-- Two categorical steps commute. -/
theorem applySel_applySel (g1 g2 : OrderRow → String) (s1 s2 : Option String)
    (l : List OrderRow) :
    applySel g1 s1 (applySel g2 s2 l) = applySel g2 s2 (applySel g1 s1 l) := by
  cases s2 with
  | none => rfl
  | some v => exact applySel_filter g1 s1 _ l

/-- A categorical step is the row filter of its selection predicate. -/
theorem applySel_eq_filter (get : OrderRow → String) (sel : Option String)
    (l : List OrderRow) :
    applySel get sel l = l.filter (selPred get sel) := by
  cases sel with
  | none => exact (List.filter_true l).symm
  | some v => rfl

/-- The categorical filter block is the row filter of the fused predicate. -/
theorem catFilter_eq_filter (c : Criteria) (l : List OrderRow) :
    catFilter c l = l.filter (catPred c) := by
  simp only [catFilter, applySel_eq_filter, List.filter_filter]
  rfl

/-- The categorical filter block is idempotent. -/
theorem catFilter_idem (c : Criteria) (l : List OrderRow) :
    catFilter c (catFilter c l) = catFilter c l := by
  simp only [catFilter_eq_filter, List.filter_filter]
  exact List.filter_congr (fun a _ => Bool.and_self _)

/-- Date filtering is idempotent. -/
theorem dateFilter_idem (f t : Int) (l : List OrderRow) :
    dateFilter f t (dateFilter f t l) = dateFilter f t l := by
  simp only [dateFilter, List.filter_filter]
  exact List.filter_congr (fun a _ => Bool.and_self _)

/-- The categorical filters send the empty frame to the empty frame. -/
theorem catFilter_nil (c : Criteria) : catFilter c [] = [] := by
  cases hr : c.region <;> cases hs : c.state <;> cases hc : c.category <;>
    cases hsub : c.subCategory <;> cases hseg : c.segment <;>
      simp [catFilter, applySel, hr, hs, hc, hsub, hseg]

/-- Every order date of a frame is bounded below by `minDate`. -/
theorem minDate_le (l : List OrderRow) (r : OrderRow) (h : r ∈ l) :
    minDate l ≤ r.orderDate := by
  induction l with
  | nil => cases h
  | cons x xs ih =>
    rcases List.mem_cons.mp h with h1 | h2
    · subst h1
      cases xs with
      | nil => exact le_refl _
      | cons y ys => exact min_le_left _ _
    · cases xs with
      | nil => cases h2
      | cons y ys => exact le_trans (min_le_right _ _) (ih h2)

/-- Every order date of a frame is bounded above by `maxDate`. -/
theorem le_maxDate (l : List OrderRow) (r : OrderRow) (h : r ∈ l) :
    r.orderDate ≤ maxDate l := by
  induction l with
  | nil => cases h
  | cons x xs ih =>
    rcases List.mem_cons.mp h with h1 | h2
    · subst h1
      cases xs with
      | nil => exact le_refl _
      | cons y ys => exact le_max_left _ _
    · cases xs with
      | nil => cases h2
      | cons y ys => exact le_trans (ih h2) (le_max_right _ _)

/-- Date-filtering a frame by its own full span keeps every row. -/
theorem dateFilter_minDate_maxDate (l : List OrderRow) :
    dateFilter (minDate l) (maxDate l) l = l := by
  rw [dateFilter, List.filter_eq_self]
  intro r hr
  exact decide_eq_true ⟨minDate_le l r hr, le_maxDate l r hr⟩

/-! ## Claim C3: empty-result fallback -/

/-- Counterexample for C3: applying all the filters (categorical then date)
to `fallbackFrame` yields zero rows, yet the engine's output is not the
full dataset: the categorical stage alone was empty, so the engine reset to
the full dataset and re-applied the date filter, leaving just the day-1
row. -/
theorem fallback_output_ne_full :
    dateFilter fallbackCriteria.dateFrom fallbackCriteria.dateTo
      (catFilter fallbackCriteria fallbackFrame) = [] ∧
    engineRows fallbackFrame fallbackCriteria ≠ fallbackFrame := by
  constructor
  · decide
  · decide

/-- Claim C3 (amended): when applying all filters (with a non-inverted date
range) yields zero rows, a warning is always signaled; the output equals
the full dataset `D` when the categorical stage was nonempty (the date
filter emptied it), but when the categorical filters alone yield zero rows
the engine resets to `D` and re-applies the date filter, so the output is
the date-filtered full dataset (itself replaced by `D` only if empty). -/
theorem fallback_spec (D : List OrderRow) (c : Criteria)
    (hd : c.dateFrom ≤ c.dateTo)
    (h : dateFilter c.dateFrom c.dateTo (catFilter c D) = []) :
    (emptyFallback1 D c ∨ emptyFallback2 D c) ∧
    (catFilter c D ≠ [] → engineRows D c = D) ∧
    (catFilter c D = [] →
      engineRows D c =
        if dateFilter c.dateFrom c.dateTo D = [] then D
        else dateFilter c.dateFrom c.dateTo D) := by
  have hc : ¬ c.dateFrom > c.dateTo := not_lt.mpr hd
  by_cases hcat : catFilter c D = []
  · refine ⟨Or.inl hcat, fun hne => absurd hcat hne, fun _ => ?_⟩
    simp [engineRows, stage2, stage1, usedFrom, usedTo, hcat, hc]
  · have h2 : stage2 D c = [] := by
      simp only [stage2, stage1, usedFrom, usedTo, if_neg hc, if_neg hcat]
      exact h
    refine ⟨Or.inr h2, fun _ => ?_, fun habs => absurd habs hcat⟩
    rw [engineRows, if_pos h2]

/-- Witness for C3: the amended fallback equation evaluated on the concrete
frame whose categorical stage is empty. -/
theorem fallback_spec_witness :
    engineRows fallbackFrame fallbackCriteria =
      if dateFilter fallbackCriteria.dateFrom fallbackCriteria.dateTo fallbackFrame = []
      then fallbackFrame
      else dateFilter fallbackCriteria.dateFrom fallbackCriteria.dateTo fallbackFrame :=
  (fallback_spec fallbackFrame fallbackCriteria (by decide) (by decide)).2.2 (by decide)

/-! ## Claim C6: inverted date-range correction -/

/-- Counterexample for C6: with region East selected and the inverted range
`(9, 1)`, the code resets the pair to the span of the *categorically
filtered* frame, `(3, 3)`, not to the claimed full-dataset span `(3, 7)`. -/
theorem dateCorrection_not_full_span :
    dateCorrected invertedCriteria ∧
    ¬ (usedFrom invertedFrame invertedCriteria = minDate invertedFrame ∧
       usedTo invertedFrame invertedCriteria = maxDate invertedFrame) := by
  constructor
  · unfold dateCorrected
    decide
  · decide

/-- Claim C6 (amended): whenever `dateFrom > dateTo` the pair is reset —
observably, the correction warning fires — to the min and max order date of
the categorically filtered frame (after its empty fallback), not of the
full dataset, before the date filter is applied; the engine output is then
that whole categorically filtered frame. -/
theorem dateCorrection_spec (D : List OrderRow) (c : Criteria)
    (h : c.dateFrom > c.dateTo) :
    dateCorrected c ∧
    usedFrom D c = minDate (stage1 D c) ∧
    usedTo D c = maxDate (stage1 D c) ∧
    engineRows D c = stage1 D c := by
  have h2 : stage2 D c = stage1 D c := by
    simp only [stage2, usedFrom, usedTo, if_pos h]
    exact dateFilter_minDate_maxDate _
  refine ⟨h, by rw [usedFrom, if_pos h], by rw [usedTo, if_pos h], ?_⟩
  rw [engineRows, h2]
  by_cases hs : stage1 D c = []
  · rw [if_pos hs, hs]
    by_cases hcat : catFilter c D = []
    · rw [stage1, if_pos hcat] at hs
      exact hs
    · rw [stage1, if_neg hcat] at hs
      exact absurd hs hcat
  · rw [if_neg hs]

/-- Witness for C6: the amended correction equations evaluated on the
concrete East/West frame with the inverted range `(9, 1)`. -/
theorem dateCorrection_spec_witness :
    usedFrom invertedFrame invertedCriteria = minDate (stage1 invertedFrame invertedCriteria) ∧
    usedTo invertedFrame invertedCriteria = maxDate (stage1 invertedFrame invertedCriteria) ∧
    engineRows invertedFrame invertedCriteria = stage1 invertedFrame invertedCriteria :=
  (dateCorrection_spec invertedFrame invertedCriteria (by decide)).2

/-! ## Claim C9: idempotence of the filter engine -/

/-- Applying the categorical block to an already-produced date-filtered
stage leaves it unchanged or empty. -/
theorem catFilter_stage2 (D : List OrderRow) (c : Criteria) :
    catFilter c (stage2 D c) = stage2 D c ∨ catFilter c (stage2 D c) = [] := by
  by_cases hcat : catFilter c D = []
  · right
    rw [stage2, stage1, if_pos hcat, catFilter_dateFilter, hcat]
    rfl
  · left
    rw [stage2, stage1, if_neg hcat, catFilter_dateFilter, catFilter_idem]

/-- The categorical stage of a second engine pass reproduces its input. -/
theorem stage1_stage2 (D : List OrderRow) (c : Criteria) :
    stage1 (stage2 D c) c = stage2 D c := by
  rcases catFilter_stage2 D c with hk | hk
  · rw [stage1, hk]
    exact ite_self _
  · rw [stage1, if_pos hk]

/-- The date stage of a second engine pass reproduces its input. -/
theorem stage2_stage2 (D : List OrderRow) (c : Criteria) :
    stage2 (stage2 D c) c = stage2 D c := by
  by_cases hcorr : c.dateFrom > c.dateTo
  · rw [stage2, usedFrom, usedTo, if_pos hcorr, if_pos hcorr, stage1_stage2]
    exact dateFilter_minDate_maxDate _
  · rw [stage2, usedFrom, usedTo, if_neg hcorr, if_neg hcorr, stage1_stage2]
    conv_rhs => rw [stage2, usedFrom, usedTo, if_neg hcorr, if_neg hcorr]
    conv_lhs => rw [stage2, usedFrom, usedTo, if_neg hcorr, if_neg hcorr]
    exact dateFilter_idem _ _ _

/-- Claim C9: the filter engine (categorical filters, date-range correction,
inclusive date filter, and both empty fallbacks, app.py lines 139-198 and
218-220) is idempotent: running the released frame through the engine again
with the same criteria returns it unchanged. -/
theorem engineRows_idempotent (D : List OrderRow) (c : Criteria) :
    engineRows (engineRows D c) c = engineRows D c := by
  by_cases h2 : stage2 D c = []
  · have hD : engineRows D c = D := by rw [engineRows, if_pos h2]
    rw [hD]
    exact hD
  · have hO : engineRows D c = stage2 D c := by rw [engineRows, if_neg h2]
    rw [hO, engineRows, stage2_stage2, if_neg h2]

/-- Witness for C4: the shared-order-ID branch of `computeKpis_spec`
evaluated on two rows with order ID `o1` and sales 10 and 20. -/
theorem computeKpis_spec_witness :
    (computeKpis [sampleRow "o1" 0 "East" "p" 10, sampleRow "o1" 1 "West" "q" 20]).totalOrders = 1 ∧
    (computeKpis [sampleRow "o1" 0 "East" "p" 10, sampleRow "o1" 1 "West" "q" 20]).totalSales = 10 + 20 :=
  computeKpis_spec.2.2.1 (sampleRow "o1" 0 "East" "p" 10) (sampleRow "o1" 1 "West" "q" 20) rfl

/-! ## Claim C2: invalid past window -/

/-- Percentage change of equal values is zero. -/
theorem calcPercentageChange_self (x : ℚ) : calcPercentageChange x x = 0 := by
  by_cases h : x = 0
  · rw [calcPercentageChange, if_pos h]
  · rw [calcPercentageChange, if_neg h, sub_self, zero_div, zero_mul]

/-- Percentage change against a zero past value is zero. -/
theorem calcPercentageChange_zero_past (x : ℚ) : calcPercentageChange x 0 = 0 := by
  rw [calcPercentageChange, if_pos rfl]

/-- All six reported changes vanish when the past KPIs coincide with the
current ones or are the zero tuple. -/
theorem changesOf_eq_zero (D : List OrderRow) (c : Criteria)
    (h : pastKpis D c = currentKpis D c ∨ pastKpis D c = zeroKpis) :
    changesOf D c = zeroChanges := by
  rcases h with h | h <;>
    rw [changesOf, h] <;>
      simp [zeroKpis, zeroChanges, calcPercentageChange_self, calcPercentageChange_zero_past]

/-- Claim C2: the past period is treated as invalid exactly when the past
window leaves the span of the full dataset's order dates (app.py line 239);
in that case the past subset is the empty frame, the six past KPIs are the
zero tuple, and every reported percentage change is 0 — the computation is
total, so no exception is possible. -/
theorem pastInvalid_spec (D : List OrderRow) (c : Criteria) (hD : D ≠ []) :
    (pastOutOfRange D c ↔
      (pastFromOf D c < minDate D ∨ pastToOf D c > maxDate D)) ∧
    (pastOutOfRange D c →
      dfPast D c = [] ∧ pastKpis D c = zeroKpis ∧ changesOf D c = zeroChanges) := by
  refine ⟨Iff.rfl, fun h => ?_⟩
  have h' : pastFromOf D c < minDate D ∨ pastToOf D c > maxDate D := h
  have hpast : dfPast D c = [] := by rw [dfPast, if_pos h']
  have hzero : pastKpis D c = zeroKpis := by
    rw [pastKpis, if_neg]
    simp [hpast]
  exact ⟨hpast, hzero, changesOf_eq_zero D c (Or.inr hzero)⟩

/-- Witness for C2: a one-row frame dated day 5 with the selected range
`[5, 6]`; the past window `[4, 5]` starts before the dataset minimum, so
the past subset is empty and all changes are 0. -/
theorem pastInvalid_spec_witness :
    dfPast [sampleRow "o1" 5 "East" "p" 10] (regionCriteria none 5 6) = [] ∧
    pastKpis [sampleRow "o1" 5 "East" "p" 10] (regionCriteria none 5 6) = zeroKpis ∧
    changesOf [sampleRow "o1" 5 "East" "p" 10] (regionCriteria none 5 6) = zeroChanges :=
  (pastInvalid_spec [sampleRow "o1" 5 "East" "p" 10] (regionCriteria none 5 6)
      (by decide)).2
    (by unfold pastOutOfRange; decide)

/-! ## Claim C10: single-day range -/

/-- A degenerate date window strictly outside the frame's date span keeps
no rows. -/
theorem dateFilter_out_of_span (d : Int) (l : List OrderRow)
    (h : d < minDate l ∨ maxDate l < d) :
    dateFilter d d l = [] := by
  rw [dateFilter, List.filter_eq_nil_iff]
  intro r hr
  simp only [decide_eq_true_eq, not_and, not_le]
  intro hd
  rcases h with h | h
  · have := minDate_le l r hr
    omega
  · have := le_maxDate l r hr
    omega

/-- On a single-day selection the past frame is either exactly the current
frame or empty. -/
theorem dfPast_singleDay (D : List OrderRow) (c : Criteria)
    (h : c.dateFrom = c.dateTo) :
    dfPast D c = dfCurrent D c ∨ dfPast D c = [] := by
  have hcorr : ¬ c.dateFrom > c.dateTo := by omega
  have hf : usedFrom D c = c.dateTo := by rw [usedFrom, if_neg hcorr, h]
  have ht : usedTo D c = c.dateTo := by rw [usedTo, if_neg hcorr]
  have hpf : pastFromOf D c = c.dateTo := by
    rw [pastFromOf, pastStartDate, dateRangeDays, hf, ht]
    ring
  have hpt : pastToOf D c = c.dateTo := by
    rw [pastToOf, pastEndDate, dateRangeDays, hf, ht]
    ring
  by_cases hcat : catFilter c D = []
  · right
    rw [dfPast]
    split
    · rfl
    · rw [hpf, hpt, catFilter_dateFilter, hcat, dateFilter]
      rfl
  · by_cases hoor : pastFromOf D c < minDate D ∨ pastToOf D c > maxDate D
    · right
      rw [dfPast, if_pos hoor]
    · by_cases h2 : stage2 D c = []
      · right
        rw [dfPast, if_neg hoor, hpf, hpt, catFilter_dateFilter]
        rw [stage2, stage1, if_neg hcat, hf, ht] at h2
        exact h2
      · left
        rw [dfPast, if_neg hoor, hpf, hpt, catFilter_dateFilter]
        rw [dfCurrent, engineRows, if_neg h2, stage2, stage1, if_neg hcat, hf, ht,
          dateFilter_idem]

/-- Claim C10: when the selected range is a single day, the span is 0 days,
the resolved past window coincides exactly with the current window, and all
six reported percentage changes are 0. -/
theorem singleDay_spec (D : List OrderRow) (c : Criteria)
    (h : c.dateFrom = c.dateTo) :
    dateRangeDays (usedFrom D c) (usedTo D c) = 0 ∧
    pastFromOf D c = usedFrom D c ∧
    pastToOf D c = usedTo D c ∧
    changesOf D c = zeroChanges := by
  have hcorr : ¬ c.dateFrom > c.dateTo := by omega
  have hf : usedFrom D c = c.dateTo := by rw [usedFrom, if_neg hcorr, h]
  have ht : usedTo D c = c.dateTo := by rw [usedTo, if_neg hcorr]
  refine ⟨by rw [dateRangeDays, hf, ht]; omega,
    by rw [pastFromOf, pastStartDate, dateRangeDays, hf, ht]; omega,
    by rw [pastToOf, pastEndDate, dateRangeDays, hf, ht]; omega, ?_⟩
  rcases dfPast_singleDay D c h with hp | hp
  · by_cases hce : dfPast D c = []
    · refine changesOf_eq_zero D c (Or.inr ?_)
      rw [pastKpis, if_neg]
      simp [hce]
    · refine changesOf_eq_zero D c (Or.inl ?_)
      rw [pastKpis, if_pos hce, hp, currentKpis]
  · refine changesOf_eq_zero D c (Or.inr ?_)
    rw [pastKpis, if_neg]
    simp [hp]

/-- Witness for C10: the single-day facts evaluated on a one-row frame with
the range `[5, 5]`. -/
theorem singleDay_spec_witness :
    dateRangeDays (usedFrom [sampleRow "o1" 5 "East" "p" 10] (regionCriteria none 5 5))
        (usedTo [sampleRow "o1" 5 "East" "p" 10] (regionCriteria none 5 5)) = 0 ∧
    pastFromOf [sampleRow "o1" 5 "East" "p" 10] (regionCriteria none 5 5) =
      usedFrom [sampleRow "o1" 5 "East" "p" 10] (regionCriteria none 5 5) ∧
    pastToOf [sampleRow "o1" 5 "East" "p" 10] (regionCriteria none 5 5) =
      usedTo [sampleRow "o1" 5 "East" "p" 10] (regionCriteria none 5 5) ∧
    changesOf [sampleRow "o1" 5 "East" "p" 10] (regionCriteria none 5 5) = zeroChanges :=
  singleDay_spec [sampleRow "o1" 5 "East" "p" 10] (regionCriteria none 5 5) rfl

/-! ## Claim C8: top-N ranking -/

/-- Inserting an element is a permutation of consing it. -/
theorem insertAsc_perm (le : α → α → Bool) (x : α) (l : List α) :
    List.Perm (insertAsc le x l) (x :: l) := by
  induction l with
  | nil => rfl
  | cons y ys ih =>
    rw [insertAsc]
    by_cases h : le x y = true
    · rw [if_pos h]
    · rw [if_neg h]
      exact (ih.cons y).trans (List.Perm.swap x y ys)

/-- The stable sort is a permutation of its input. -/
theorem sortAsc_perm (le : α → α → Bool) (l : List α) : List.Perm (sortAsc le l) l := by
  induction l with
  | nil => rfl
  | cons x xs ih => exact (insertAsc_perm le x (sortAsc le xs)).trans (ih.cons x)

/-- The stable sort preserves length. -/
theorem sortAsc_length (le : α → α → Bool) (l : List α) :
    (sortAsc le l).length = l.length :=
  (sortAsc_perm le l).length_eq

/-- The stable sort preserves membership. -/
theorem sortAsc_mem (le : α → α → Bool) (x : α) (l : List α) :
    x ∈ sortAsc le l ↔ x ∈ l :=
  (sortAsc_perm le l).mem_iff

/-- Insertion into a sorted list stays sorted (total transitive order). -/
theorem insertAsc_pairwise (le : α → α → Bool)
    (htot : ∀ a b, le a b = true ∨ le b a = true)
    (htrans : ∀ a b c, le a b = true → le b c = true → le a c = true)
    (x : α) (l : List α) (hl : l.Pairwise (fun a b => le a b = true)) :
    (insertAsc le x l).Pairwise (fun a b => le a b = true) := by
  induction l with
  | nil => simp [insertAsc]
  | cons y ys ih =>
    rcases List.pairwise_cons.mp hl with ⟨hy, hys⟩
    by_cases hxy : le x y = true
    · rw [insertAsc, if_pos hxy]
      refine List.pairwise_cons.mpr ⟨?_, hl⟩
      intro z hz
      rcases List.mem_cons.mp hz with rfl | hz
      · exact hxy
      · exact htrans x y z hxy (hy z hz)
    · rw [insertAsc, if_neg hxy]
      refine List.pairwise_cons.mpr ⟨?_, ih hys⟩
      intro z hz
      rcases List.mem_cons.mp ((insertAsc_perm le x ys).mem_iff.mp hz) with rfl | hz
      · rcases htot z y with h | h
        · exact absurd h hxy
        · exact h
      · exact hy z hz

/-- The stable sort sorts (total transitive order). -/
theorem sortAsc_pairwise (le : α → α → Bool)
    (htot : ∀ a b, le a b = true ∨ le b a = true)
    (htrans : ∀ a b c, le a b = true → le b c = true → le a c = true)
    (l : List α) :
    (sortAsc le l).Pairwise (fun a b => le a b = true) := by
  induction l with
  | nil => exact List.Pairwise.nil
  | cons x xs ih => exact insertAsc_pairwise le htot htrans x (sortAsc le xs) ih

/-- Stability, phrased on value-sorted pairs: inserting a pair whose name
precedes the name of every equal-valued pair of a list that is sorted by
value with ties in ascending name order keeps that shape. -/
theorem insertAsc_pairwise_tie (x : String × ℚ) (l : List (String × ℚ))
    (hl : l.Pairwise (fun a b => a.2 < b.2 ∨ (a.2 = b.2 ∧ strLtB a.1 b.1 = true)))
    (hx : ∀ y ∈ l, x.2 = y.2 → strLtB x.1 y.1 = true) :
    (insertAsc (fun a b => decide (a.2 ≤ b.2)) x l).Pairwise
      (fun a b => a.2 < b.2 ∨ (a.2 = b.2 ∧ strLtB a.1 b.1 = true)) := by
  induction l with
  | nil => simp [insertAsc]
  | cons y ys ih =>
    rcases List.pairwise_cons.mp hl with ⟨hy, hys⟩
    by_cases hxy : (fun a b : String × ℚ => decide (a.2 ≤ b.2)) x y = true
    · rw [insertAsc, if_pos hxy]
      simp only [decide_eq_true_eq] at hxy
      refine List.pairwise_cons.mpr ⟨?_, hl⟩
      intro z hz
      have hxz : x.2 ≤ z.2 := by
        rcases List.mem_cons.mp hz with rfl | hz
        · exact hxy
        · rcases hy z hz with h | h
          · exact le_trans hxy (le_of_lt h)
          · exact le_trans hxy (le_of_eq h.1)
      rcases lt_or_eq_of_le hxz with h | h
      · exact Or.inl h
      · exact Or.inr ⟨h, hx z (by
          rcases List.mem_cons.mp hz with rfl | hz
          · exact List.mem_cons_self z ys
          · exact List.mem_cons_of_mem y hz) h⟩
    · rw [insertAsc, if_neg hxy]
      simp only [decide_eq_true_eq, not_le] at hxy
      refine List.pairwise_cons.mpr
        ⟨?_, ih hys (fun z hz => hx z (List.mem_cons_of_mem y hz))⟩
      intro z hz
      rcases List.mem_cons.mp
          ((insertAsc_perm (fun a b => decide (a.2 ≤ b.2)) x ys).mem_iff.mp hz) with
        rfl | hz
      · exact Or.inl hxy
      · exact hy z hz

/-- Sorting a list of pairs with strictly ascending names by value yields a
value-sorted list whose ties are in ascending name order. -/
theorem sortAsc_pairwise_tie (l : List (String × ℚ))
    (hl : l.Pairwise (fun a b => strLtB a.1 b.1 = true)) :
    (sortAsc (fun a b => decide (a.2 ≤ b.2)) l).Pairwise
      (fun a b => a.2 < b.2 ∨ (a.2 = b.2 ∧ strLtB a.1 b.1 = true)) := by
  induction l with
  | nil => exact List.Pairwise.nil
  | cons x xs ih =>
    rcases List.pairwise_cons.mp hl with ⟨hx, hxs⟩
    exact insertAsc_pairwise_tie x (sortAsc _ xs) (ih hxs)
      (fun y hy _ =>
        hx y ((sortAsc_perm (fun a b => decide (a.2 ≤ b.2)) xs).mem_iff.mp hy))

/-- Asymmetry of the code-point order. -/
theorem charListLtB_asymm :
    ∀ x y : List Char, charListLtB x y = true → charListLtB y x = false := by
  intro x
  induction x with
  | nil =>
    intro y h
    cases y with
    | nil => exact absurd h (by simp [charListLtB])
    | cons b bs => rfl
  | cons a as ih =>
    intro y h
    cases y with
    | nil => exact absurd h (by simp [charListLtB])
    | cons b bs =>
      by_cases hab : a < b
      · simp [charListLtB, if_neg (lt_asymm hab), if_pos hab]
      · by_cases hba : b < a
        · rw [charListLtB, if_neg hab, if_pos hba] at h
          exact absurd h (by simp)
        · rw [charListLtB, if_neg hab, if_neg hba] at h
          rw [charListLtB, if_neg hba, if_neg hab]
          exact ih bs h

/-- Connectedness of the code-point order. -/
theorem charListLtB_conn :
    ∀ x y : List Char, charListLtB x y = false → charListLtB y x = false → x = y := by
  intro x
  induction x with
  | nil =>
    intro y h1 _
    cases y with
    | nil => rfl
    | cons b bs => exact absurd h1 (by simp [charListLtB])
  | cons a as ih =>
    intro y h1 h2
    cases y with
    | nil => exact absurd h2 (by simp [charListLtB])
    | cons b bs =>
      by_cases hab : a < b
      · rw [charListLtB, if_pos hab] at h1
        exact absurd h1 (by simp)
      · by_cases hba : b < a
        · rw [charListLtB, if_pos hba] at h2
          exact absurd h2 (by simp)
        · rw [charListLtB, if_neg hab, if_neg hba] at h1
          rw [charListLtB, if_neg hba, if_neg hab] at h2
          rw [le_antisymm (le_of_not_lt hba) (le_of_not_lt hab), ih bs h1 h2]

/-- Transitivity of the code-point order. -/
theorem charListLtB_trans :
    ∀ x y z : List Char, charListLtB x y = true → charListLtB y z = true →
      charListLtB x z = true := by
  intro x
  induction x with
  | nil =>
    intro y z h1 h2
    cases y with
    | nil => exact absurd h1 (by simp [charListLtB])
    | cons b bs =>
      cases z with
      | nil => exact absurd h2 (by simp [charListLtB])
      | cons c cs => simp [charListLtB]
  | cons a as ih =>
    intro y z h1 h2
    cases y with
    | nil => exact absurd h1 (by simp [charListLtB])
    | cons b bs =>
      cases z with
      | nil => exact absurd h2 (by simp [charListLtB])
      | cons c cs =>
        by_cases hab : a < b
        · by_cases hbc : b < c
          · rw [charListLtB, if_pos (lt_trans hab hbc)]
          · by_cases hcb : c < b
            · rw [charListLtB, if_neg hbc, if_pos hcb] at h2
              exact absurd h2 (by simp)
            · have hbceq : b = c := le_antisymm (le_of_not_lt hcb) (le_of_not_lt hbc)
              rw [charListLtB, if_pos (hbceq ▸ hab)]
        · by_cases hba : b < a
          · rw [charListLtB, if_neg hab, if_pos hba] at h1
            exact absurd h1 (by simp)
          · have habeq : a = b := le_antisymm (le_of_not_lt hba) (le_of_not_lt hab)
            rw [charListLtB, if_neg hab, if_neg hba] at h1
            subst habeq
            by_cases hbc : a < c
            · rw [charListLtB, if_pos hbc]
            · by_cases hcb : c < a
              · rw [charListLtB, if_neg hbc, if_pos hcb] at h2
                exact absurd h2 (by simp)
              · rw [charListLtB, if_neg hbc, if_neg hcb] at h2 ⊢
                exact ih bs cs h1 h2

/-- Strings with the same character data are equal. -/
theorem string_data_inj (a b : String) (h : a.data = b.data) : a = b := by
  cases a
  cases b
  exact congrArg String.mk h

/-- Totality of the reflexive code-point order on strings. -/
theorem strLeB_total (a b : String) : strLeB a b = true ∨ strLeB b a = true := by
  by_cases h : charListLtB b.data a.data = true
  · right
    simp [strLeB, strLtB, charListLtB_asymm _ _ h]
  · left
    simp [strLeB, strLtB]
    exact Bool.eq_false_iff.mpr h

/-- Transitivity of the reflexive code-point order on strings. -/
theorem strLeB_trans (a b c : String)
    (h1 : strLeB a b = true) (h2 : strLeB b c = true) : strLeB a c = true := by
  simp only [strLeB, strLtB, Bool.not_eq_true'] at h1 h2 ⊢
  by_cases hca : charListLtB c.data a.data = true
  · by_cases hbc : charListLtB b.data c.data = true
    · exact absurd (charListLtB_trans _ _ _ hbc hca) (by simp [h1])
    · have : b.data = c.data :=
        charListLtB_conn _ _ (Bool.eq_false_iff.mpr hbc) h2
      rw [← this] at hca
      exact absurd hca (by simp [h1])
  · exact Bool.eq_false_iff.mpr hca

/-- The reflexive order is strict on distinct strings. -/
theorem strLtB_of_strLeB_of_ne (a b : String)
    (h1 : strLeB a b = true) (h2 : a ≠ b) : strLtB a b = true := by
  simp only [strLeB, strLtB, Bool.not_eq_true'] at h1 ⊢
  by_cases h : charListLtB a.data b.data = true
  · exact h
  · exact absurd (string_data_inj a b
      (charListLtB_conn _ _ (Bool.eq_false_iff.mpr h) h1)) h2

/-- The sorted distinct product names are strictly increasing. -/
theorem sortedProductNames_sorted (rows : List OrderRow) :
    (sortedProductNames rows).Pairwise (fun a b => strLtB a b = true) := by
  have hle : (sortedProductNames rows).Pairwise (fun a b => strLeB a b = true) :=
    sortAsc_pairwise strLeB strLeB_total
      (fun a b c hab hbc => strLeB_trans a b c hab hbc) _
  have hnd : (sortedProductNames rows).Pairwise (fun a b : String => a ≠ b) :=
    ((sortAsc_perm _ _).nodup_iff).mpr (List.nodup_dedup _)
  exact (hle.and hnd).imp (fun h => strLtB_of_strLeB_of_ne _ _ h.1 h.2)

/-- The grouped product sums carry strictly increasing names. -/
theorem groupByProductSum_key_sorted (m : OrderRow → ℚ) (rows : List OrderRow) :
    (groupByProductSum m rows).Pairwise (fun a b => strLtB a.1 b.1 = true) := by
  rw [groupByProductSum]
  exact List.pairwise_map.mpr (sortedProductNames_sorted rows)

/-- Claim C8 (amended): over a subset with at least 15 distinct products,
the top-10 view returns exactly 10 pairs, sorted descending by the summed
metric, each pair's value being the sum of the metric over that product's
rows; ties are broken by the *reverse* of the grouping iteration order
(pandas reverses a stable ascending argsort for a descending sort), so an
equal-valued pair with the later group key comes first. -/
theorem topN_spec (rows : List OrderRow) (m : OrderRow → ℚ)
    (h : 15 ≤ ((rows.map (·.productName)).dedup).length) :
    (topN m rows 10).length = 10 ∧
    (topN m rows 10).Pairwise
      (fun a b => b.2 < a.2 ∨ (b.2 = a.2 ∧ strLtB b.1 a.1 = true)) ∧
    (∀ x ∈ topN m rows 10,
      x.2 = ((rows.filter (fun r => r.productName == x.1)).map m).sum) := by
  refine ⟨?_, ?_, ?_⟩
  · rw [topN, List.length_take, sortValuesDesc, List.length_reverse, sortAsc_length,
      groupByProductSum, List.length_map, sortedProductNames, sortAsc_length]
    omega
  · have hs := sortAsc_pairwise_tie (groupByProductSum m rows)
      (groupByProductSum_key_sorted m rows)
    rw [topN, sortValuesDesc]
    exact ((List.pairwise_reverse).mpr hs).sublist (List.take_sublist _ _)
  · intro x hx
    have hx1 : x ∈ sortValuesDesc (groupByProductSum m rows) :=
      (List.take_sublist _ _).subset hx
    rw [sortValuesDesc] at hx1
    have hx2 : x ∈ groupByProductSum m rows :=
      (sortAsc_mem _ _ _).mp (List.mem_reverse.mp hx1)
    rw [groupByProductSum] at hx2
    rcases List.mem_map.mp hx2 with ⟨k, hk, hkx⟩
    rw [← hkx]

/-- Counterexample for C8: the claim says ties are broken by the original
grouping iteration order, which for `tieRows` puts product `a` before
product `b` (`"a" < "b"`); the code instead emits `("b", 50)` at position 8
and `("a", 50)` at position 9, i.e. the tied pair appears in the reverse of
the grouping order. -/
theorem topN_tie_reversed :
    15 ≤ ((tieRows.map (·.productName)).dedup).length ∧
    strLtB "a" "b" = true ∧
    (topN (fun r => r.sales) tieRows 10)[8]? = some ("b", 50) ∧
    (topN (fun r => r.sales) tieRows 10)[9]? = some ("a", 50) := by
  have hn : sortedProductNames tieRows =
      ["a", "b", "p1", "p2", "p3", "p4", "p5", "p6", "p7", "p8",
       "q1", "q2", "q3", "q4", "q5"] := by decide
  have hg : groupByProductSum (fun r => r.sales) tieRows =
      [("a", 50), ("b", 50), ("p1", 100), ("p2", 99), ("p3", 98), ("p4", 97),
       ("p5", 96), ("p6", 95), ("p7", 94), ("p8", 93), ("q1", 1), ("q2", 2),
       ("q3", 3), ("q4", 4), ("q5", 5)] := by
    rw [groupByProductSum, hn]
    simp [tieRows, sampleRow, List.filter, beq_iff_eq]
  refine ⟨by decide, by decide, ?_, ?_⟩
  · rw [topN, sortValuesDesc, hg]
    decide
  · rw [topN, sortValuesDesc, hg]
    decide

/-- Witness for C8: the amended top-10 facts evaluated on `tieRows`. -/
theorem topN_spec_witness :
    (topN (fun r => r.sales) tieRows 10).length = 10 :=
  (topN_spec tieRows (fun r => r.sales) (by decide)).1
